import Mathlib

/-!
Shallow embedding of the signalr client core (httpconnection / hubconnection)
and proofs about the claims of its specification.

The embedding follows the Go source:
* `Headers` models `http.Header` with the `Get` / `Del` operations used by
  `NewHTTPConnection`; `Values` models `url.Values` with `Set` and lookup.
* mutable `http.Header` instances returned by the configured header provider
  are modelled by an explicit heap (`HeaderHeap`): a provider either returns
  a fresh map on every call or the same underlying map on every call.
* the negotiate phase of `NewHTTPConnection` is modelled as a function from
  the (abstracted) HTTP response to an effect trace plus an outcome.
* `defaultHubConnection` state and its `Start` / `IsConnected` / `Close` /
  `Abort` methods are modelled by pure state transformers; the `Receive` /
  `writeMessage` goroutine-racing logic is modelled by small labelled
  transition systems with explicit channel buffers.
-/

namespace Signalr

/-- Model of Go `http.Header`: ordered association list from header key to
the list of values stored under that key. -/
structure Headers where
  entries : List (String × List String)
deriving DecidableEq, Repr

/-- Go `http.Header.Get`: first value stored under the key, `""` if absent
(keys are compared literally; the claims only use the canonical key
`Authorization`). -/
def Headers.get (h : Headers) (k : String) : String :=
  match h.entries.find? (fun p => p.1 == k) with
  | some (_, v :: _) => v
  | _ => ""

/-- Go `http.Header.Del`: remove every entry stored under the key. -/
def Headers.del (h : Headers) (k : String) : Headers :=
  ⟨h.entries.filter (fun p => p.1 != k)⟩

/-- Model of Go `url.Values`: association list from query key to value list. -/
structure Values where
  entries : List (String × List String)
deriving DecidableEq, Repr

/-- Go `url.Values.Set`: replace any existing values under the key by the
single given value. -/
def Values.set (q : Values) (k v : String) : Values :=
  ⟨(q.entries.filter (fun p => p.1 != k)) ++ [(k, [v])]⟩

/-- Lookup of all values stored under a query key (what `q[key]` holds after
`q.Set`; `q.Encode()` renders exactly these pairs). -/
def Values.get? (q : Values) (k : String) : Option (List String) :=
  (q.entries.find? (fun p => p.1 == k)).map (·.2)

/-- One advertised transport of a negotiate response:
`{transport, transferFormats}`. -/
structure availableTransport where
  transport : String
  transferFormats : List String
deriving DecidableEq, Repr

/-- Go struct `negotiateResponse` decoded from the negotiate JSON body:
`{connectionId, connectionToken, availableTransports}`. -/
structure negotiateResponse where
  connectionID : String
  connectionToken : String
  availableTransports : List availableTransport
deriving DecidableEq, Repr

/-- Modelled from the spec: the method `negotiateResponse.getTransferFormats`
is declared in a source file that is absent from `src/`. Per the spec the
negotiate response carries `availableTransports:[{transport,
transferFormats:[...]}]`, and `getTransferFormats(name)` yields the transfer
formats advertised for the transport called `name`, or nil (`none`) when that
transport is not advertised. -/
def negotiateResponse.getTransferFormats (nr : negotiateResponse) (t : String) :
    Option (List String) :=
  (nr.availableTransports.find? (fun a => a.transport == t)).map (·.transferFormats)

/-- Helper for the model of Go `strings.ReplaceAll`, structurally recursive
on a fuel argument (the length of the scanned string always suffices). -/
def replaceAllAux : Nat → List Char → List Char → List Char → List Char
  | 0, s, _, _ => s
  | _ + 1, [], _, _ => []
  | fuel + 1, c :: rest, pat, rep =>
      if pat.isPrefixOf (c :: rest) then
        rep ++ replaceAllAux fuel ((c :: rest).drop pat.length) pat rep
      else
        c :: replaceAllAux fuel rest pat rep

/-- Model of Go `strings.ReplaceAll(s, pattern, replacement)` for the
non-empty patterns this code uses: replace every non-overlapping occurrence
of `pattern` in `s`, scanning left to right. -/
def replaceAll (s pattern replacement : String) : String :=
  if pattern = "" then s
  else ⟨replaceAllAux s.length s.data pattern.data replacement.data⟩

/-- Lines 106-112 of the http connection source: the `id` query parameter is
set to `connectionToken` when it is non-empty, otherwise to `connectionID`. -/
def setIdQuery (q : Values) (nr : negotiateResponse) : Values :=
  if nr.connectionToken ≠ "" then
    q.set "id" nr.connectionToken
  else
    q.set "id" nr.connectionID

/-- A configured header provider (`httpConn.headers`). Go providers hand back
a mutable `http.Header` map; the two behaviours that matter are whether each
call returns a brand-new map with the same contents (`fresh`) or the same
underlying map every time (`shared`). -/
inductive HeaderProvider where
  | fresh (base : Headers)
  | shared (base : Headers)
deriving DecidableEq, Repr

/-- Heap of live `http.Header` instances; a `Nat` index is a map reference. -/
abbrev HeaderHeap := List Headers

/-- Heap before the first provider call: a `shared` provider already owns its
one underlying map, a `fresh` provider owns nothing yet. -/
def HeaderProvider.initHeap : HeaderProvider → HeaderHeap
  | .fresh _ => []
  | .shared base => [base]

/-- One call `httpConn.headers()`: a `fresh` provider allocates a new map with
the base contents and returns a reference to it; a `shared` provider returns
the reference to its single underlying map. -/
def HeaderProvider.call : HeaderProvider → HeaderHeap → Nat × HeaderHeap
  | .fresh base, h => (h.length, h ++ [base])
  | .shared _, h => (0, h)

/-- Read the header map a reference points at. -/
def heapHeaders (h : HeaderHeap) (r : Nat) : Headers :=
  h.getD r ⟨[]⟩

/-- Overwrite the header map a reference points at (a Go in-place mutation). -/
def heapWrite (h : HeaderHeap) (r : Nat) (m : Headers) : HeaderHeap :=
  h.set r m

/-- The `websocket.DialOptions` fields this code touches: `HTTPHeader` is
`none` for the zero value (no header provider configured). -/
structure DialOptions where
  httpHeader : Option Headers
deriving DecidableEq, Repr

/-- Outcome of preparing the WebSocket dial (lines 128-141 of the http
connection source): the dial options and the dial URL's query. -/
structure WSDialPrep where
  opts : DialOptions
  query : Values
deriving DecidableEq, Repr

/-- Lines 128-141 of the http connection source, the WebSocket branch before
`websocket.Dial`: when a header provider is configured, call it
(`headers := httpConn.headers()`), extract a bearer token from its
`Authorization` header and delete that header from the returned map, then
call the provider AGAIN for `opts.HTTPHeader = httpConn.headers()`, and set
`access_token` on the dial URL's query. With no provider the options keep
their zero value and the query is untouched. -/
def wsBranchPrep (provider : Option HeaderProvider) (q0 : Values) : WSDialPrep :=
  match provider with
  | none => { opts := { httpHeader := none }, query := q0 }
  | some p =>
      let h0 := p.initHeap
      let c0 := p.call h0
      let headers := heapHeaders c0.2 c0.1
      let tokenAndHeap :=
        if headers.get "Authorization" ≠ "" then
          (replaceAll (headers.get "Authorization") "Bearer " "",
            heapWrite c0.2 c0.1 (headers.del "Authorization"))
        else
          ("", c0.2)
      let c1 := p.call tokenAndHeap.2
      { opts := { httpHeader := some (heapHeaders c1.2 c1.1) },
        query := q0.set "access_token" tokenAndHeap.1 }

/-- Observable effects of the negotiate phase of `NewHTTPConnection`:
the negotiate POST round trip (`httpConn.client.Do(req)`), the body read
(`io.ReadAll(resp.Body)`), and the deferred `resp.Body.Close()`. -/
inductive NegotiateEffect where
  | doNegotiate
  | readBody
  | closeBody
deriving DecidableEq, Repr

/-- Abstraction of the `*http.Response` the negotiate POST produced:
status code and status text, whether `io.ReadAll` fails (and with what
error), and whether `json.Unmarshal` succeeds (and into what value). -/
structure HTTPRespModel where
  statusCode : Nat
  status : String
  readAllErr : Option String
  decodeOk : Bool
  decoded : negotiateResponse
deriving DecidableEq, Repr

/-- Result of the negotiate phase: a decoded `negotiateResponse` or an error. -/
inductive NegotiateOutcome where
  | ok (nr : negotiateResponse)
  | fail (msg : String)
deriving DecidableEq, Repr

/-- Lines 81-99 of the http connection source: perform the negotiate POST,
return early on a transport error (the deferred close is registered only
after the error check), fail on a non-200 status with
`"METHOD URL -> STATUS"`, otherwise read the whole body and JSON-decode it.
The effect trace records the round trip, the body read and the body close. -/
def negotiatePhase (method urlStr : String) (doResult : Except String HTTPRespModel) :
    List NegotiateEffect × NegotiateOutcome :=
  match doResult with
  | .error e => ([.doNegotiate], .fail e)
  | .ok resp =>
      if resp.statusCode ≠ 200 then
        ([.doNegotiate, .closeBody],
          .fail (method ++ " " ++ urlStr ++ " -> " ++ resp.status))
      else
        match resp.readAllErr with
        | some e => ([.doNegotiate, .readBody, .closeBody], .fail e)
        | none =>
            if resp.decodeOk then
              ([.doNegotiate, .readBody, .closeBody], .ok resp.decoded)
            else
              ([.doNegotiate, .readBody, .closeBody], .fail "json: cannot unmarshal")

/-- Result of `NewHTTPConnection` after transport selection: an established
connection (keyed by the negotiated connection id), an error, or the
`(nil, nil)` outcome when no advertised transport is supported. -/
inductive ConnResult where
  | ok (connectionID : String)
  | err (e : String)
  | nilNil
deriving DecidableEq, Repr

/-- Results of the external calls the two transport branches can make:
the `websocket.Dial` error and the SSE `client.Do` error (`none` = success). -/
structure TransportEnv where
  dialResult : Option String
  sseDoResult : Option String
deriving DecidableEq, Repr

/-- Lines 114-172 of the http connection source: the transport-selection
`switch`. The WebSocket case is taken when `getTransferFormats("WebSockets")`
is non-nil, the SSE case when `getTransferFormats("ServerSentEvents")` is
non-nil; with no matching case `conn` keeps its nil zero value and the
function returns `conn, nil`. -/
def selectAndEstablish (nr : negotiateResponse) (env : TransportEnv) : ConnResult :=
  if (nr.getTransferFormats "WebSockets").isSome then
    match env.dialResult with
    | some e => .err e
    | none => .ok nr.connectionID
  else if (nr.getTransferFormats "ServerSentEvents").isSome then
    match env.sseDoResult with
    | some e => .err e
    | none => .ok nr.connectionID
  else
    .nilNil

/-- Modelled from the spec: the struct `closeMessage` is declared in a source
file absent from `src/`; per the spec a Close message carries
`Type=7, error, allowReconnect`, matching the fields `hubconnection.go`
assigns. -/
structure closeMessage where
  type : Nat
  error : String
  allowReconnect : Bool
deriving DecidableEq, Repr

/-- Error returned by the raced `writeMessage` path: nil, an I/O error from
`Protocol.WriteMessage`, or the cancellation scope's error `ctx.Err()`. -/
inductive WriteError where
  | ok
  | io (e : String)
  | ctx
deriving DecidableEq, Repr

/-- Wrap an optional Go error value. -/
def WriteError.ofOpt : Option String → WriteError
  | none => .ok
  | some e => .io e

/-- The mutable fields of `defaultHubConnection` the lifecycle methods touch:
the atomic `Connected` int32 and whether the internal cancellation scope
(`c.context`, cancelled by `c.abort`) is done. -/
structure HubState where
  Connected : Int
  ctxDone : Bool
deriving DecidableEq, Repr

/-- Method `Start()`: `atomic.CompareAndSwapInt32(&c.Connected, 0, 1)`. -/
def Start (s : HubState) : HubState :=
  if s.Connected = 0 then { s with Connected := 1 } else s

/-- Method `IsConnected()`: `atomic.LoadInt32(&c.Connected) == 1`. -/
def IsConnected (s : HubState) : Bool :=
  s.Connected = 1

/-- Method `Abort()`: cancel the internal scope (`c.abort()`) and clear `Connected`
(`atomic.SwapInt32(&c.Connected, 0)`). -/
def Abort (s : HubState) : HubState :=
  { s with ctxDone := true, Connected := 0 }

/-- Environment of one sequential `writeMessage` call: the error
`Protocol.WriteMessage` produces, and whether the `select` picks the
`<-c.context.Done()` case (possible only when the scope is already done). -/
structure WriteEnv where
  protocolResult : Option String
  ctxWins : Bool
deriving DecidableEq, Repr

/-- Sequential model of `writeMessage` (hubconnection.go lines 153-164): the
spawned goroutine always runs `Protocol.WriteMessage(message, c.Connection)`
(the message written is returned as the one-element effect list); the
`select` returns `c.context.Err()` when the done case fires first, and the
write's error otherwise. -/
def writeMessageModel (s : HubState) (msg : closeMessage) (env : WriteEnv) :
    List closeMessage × WriteError :=
  ([msg], if s.ctxDone ∧ env.ctxWins then .ctx else .ofOpt env.protocolResult)

/-- Result of `Close`: the successor state, the constructed close message,
the messages handed to `Protocol.WriteMessage`, and the returned error. -/
structure CloseOut where
  state : HubState
  msg : closeMessage
  written : List closeMessage
  err : WriteError
deriving DecidableEq, Repr

/-- Method `Close(error)` (hubconnection.go lines 58-67):
`atomic.StoreInt32(&c.Connected, 0)`, construct
`closeMessage{Type: 7, Error: error, AllowReconnect: true}`, and return it
together with `c.writeMessage(closeMessage)`. -/
def Close (s : HubState) (error : String) (env : WriteEnv) : CloseOut :=
  let cleared : HubState := { s with Connected := 0 }
  let m : closeMessage := { type := 7, error := error, allowReconnect := true }
  let w := writeMessageModel cleared m env
  { state := cleared, msg := m, written := w.1, err := w.2 }

/-- One `map[string]interface{}` instance (values abstracted as strings). -/
abbrev ItemsMap := List (String × String)

/-- Heap of live `items` map instances; a `Nat` index is a map reference. -/
abbrev ItemsHeap := List ItemsMap

/-- Read the items map a reference points at. -/
def itemsAt (h : ItemsHeap) (r : Nat) : ItemsMap :=
  h.getD r []

/-- Overwrite the items map a reference points at (a Go in-place mutation
performed through any alias of the map). -/
def itemsWrite (h : ItemsHeap) (r : Nat) (m : ItemsMap) : ItemsHeap :=
  h.set r m

/-- Go map assignment `m[k] = v` on one items map. -/
def mapInsert (m : ItemsMap) (k v : String) : ItemsMap :=
  (m.filter (fun p => p.1 != k)) ++ [(k, v)]

/-- Go map lookup `m[k]` on one items map. -/
def mapLookup (m : ItemsMap) (k : String) : Option String :=
  (m.find? (fun p => p.1 == k)).map (·.2)

/-- The fields of `defaultHubConnection` relevant to the items store: the
reference to the single map created at construction. -/
structure HubConnObj where
  itemsRef : Nat
  maximumReceiveMessageSize : Nat
deriving DecidableEq, Repr

/-- Constructor `newHubConnection` (hubconnection.go lines 24-34), restricted to the
items store: `items: make(map[string]interface{})` allocates one fresh empty
map and the connection keeps a reference to it. -/
def newHubConnection (maxSize : Nat) (h : ItemsHeap) : HubConnObj × ItemsHeap :=
  ({ itemsRef := h.length, maximumReceiveMessageSize := maxSize }, h ++ [[]])

/-- Method `Items()` (hubconnection.go lines 46-48): `return c.items` hands back the
stored map reference itself; no copy, no lock. -/
def Items (c : HubConnObj) : Nat :=
  c.itemsRef

/-- Progress of the goroutine `Receive` spawns: still looping
(`working`), performed the buffered send `m <- …` (`sentMsg`), performed the
buffered send `e <- …` after which it only breaks out of the loop and
returns (`finished`). -/
inductive AttemptPhase where
  | working
  | sentMsg
  | finished
deriving DecidableEq, Repr

/-- Error component of `Receive`'s result: nil, the underlying I/O error, or
the cancellation scope's error `c.context.Err()`. -/
inductive RecvError where
  | ok
  | io (e : String)
  | ctx
deriving DecidableEq, Repr

/-- Wrap the optional Go error the goroutine sent on `e`. -/
def RecvError.ofOpt : Option String → RecvError
  | none => .ok
  | some e => .io e

/-- The pair `Receive` returns: the message (nil = `none`) and the error. -/
structure RecvResult where
  message : Option String
  error : RecvError
deriving DecidableEq, Repr

/-- Progress of the `select` in `Receive`: still selecting, draining `<-e`
inside the `<-c.context.Done()` case, or returned with a result. -/
inductive MainPhase where
  | selecting
  | draining
  | returned (r : RecvResult)
deriving DecidableEq, Repr

/-- State of one `Receive` call racing its spawned goroutine against the
cancellation scope: the goroutine's phase, the contents of the two
buffered-capacity-1 channels `m` and `e`, whether `c.context` is done, and
the `select`'s phase. -/
structure RaceState where
  attempt : AttemptPhase
  mBuf : Option (Option String)
  eBuf : Option (Option String)
  cancelled : Bool
  main : MainPhase
deriving DecidableEq, Repr

/-- Interleaving steps of `Receive` (hubconnection.go lines 82-116), for a
goroutine whose read/parse loop ends with message `mv` and error `ev`:
the goroutine sends on `m` then on `e` (both buffered, capacity 1, so the
sends never block); the scope may become done at any time; the `select`
either takes the done case and then drains `<-e` before returning
`(nil, c.context.Err())`, or takes the `err := <-e` case and returns
`(<-m, err)`. -/
inductive RStep (mv ev : Option String) : RaceState → RaceState → Prop where
  | sendM (eb : Option (Option String)) (c : Bool) (mn : MainPhase) :
      RStep mv ev ⟨.working, none, eb, c, mn⟩ ⟨.sentMsg, some mv, eb, c, mn⟩
  | sendE (mb : Option (Option String)) (c : Bool) (mn : MainPhase) :
      RStep mv ev ⟨.sentMsg, mb, none, c, mn⟩ ⟨.finished, mb, some ev, c, mn⟩
  | cancel (a : AttemptPhase) (mb eb : Option (Option String)) (mn : MainPhase) :
      RStep mv ev ⟨a, mb, eb, false, mn⟩ ⟨a, mb, eb, true, mn⟩
  | selectDone (a : AttemptPhase) (mb eb : Option (Option String)) :
      RStep mv ev ⟨a, mb, eb, true, .selecting⟩ ⟨a, mb, eb, true, .draining⟩
  | drainE (a : AttemptPhase) (mb : Option (Option String)) (c : Bool)
      (ev' : Option String) :
      RStep mv ev ⟨a, mb, some ev', c, .draining⟩
        ⟨a, mb, none, c, .returned ⟨none, .ctx⟩⟩
  | selectE (a : AttemptPhase) (mv' ev' : Option String) (c : Bool) :
      RStep mv ev ⟨a, some mv', some ev', c, .selecting⟩
        ⟨a, none, none, c, .returned ⟨mv', RecvError.ofOpt ev'⟩⟩

/-- The states one `Receive` call can reach from its start. -/
inductive RReach (mv ev : Option String) : RaceState → Prop where
  | init : RReach mv ev ⟨.working, none, none, false, .selecting⟩
  | step {s s' : RaceState} : RReach mv ev s → RStep mv ev s s' → RReach mv ev s'

/-- Progress of the goroutine `writeMessage` spawns. -/
inductive WPhase where
  | working
  | finished
deriving DecidableEq, Repr

/-- Progress of the `select` in `writeMessage`. -/
inductive WMain where
  | selecting
  | draining
  | returned (r : WriteError)
deriving DecidableEq, Repr

/-- State of one `writeMessage` call racing its spawned goroutine against the
cancellation scope: the goroutine's phase, the buffered channel `e`, whether
`c.context` is done, and the `select`'s phase. -/
structure WRaceState where
  attempt : WPhase
  eBuf : Option (Option String)
  cancelled : Bool
  main : WMain
deriving DecidableEq, Repr

/-- Interleaving steps of `writeMessage` (hubconnection.go lines 153-164)
for a goroutine whose `Protocol.WriteMessage` call returns error `ev`:
the goroutine sends its error on the buffered channel `e` and finishes; the
scope may become done at any time; the `select` either takes the done case
and then drains `<-e` before returning `c.context.Err()`, or takes
`err := <-e` and returns `err`. -/
inductive WStep (ev : Option String) : WRaceState → WRaceState → Prop where
  | sendE (c : Bool) (mn : WMain) :
      WStep ev ⟨.working, none, c, mn⟩ ⟨.finished, some ev, c, mn⟩
  | cancel (a : WPhase) (eb : Option (Option String)) (mn : WMain) :
      WStep ev ⟨a, eb, false, mn⟩ ⟨a, eb, true, mn⟩
  | selectDone (a : WPhase) (eb : Option (Option String)) :
      WStep ev ⟨a, eb, true, .selecting⟩ ⟨a, eb, true, .draining⟩
  | drainE (a : WPhase) (c : Bool) (ev' : Option String) :
      WStep ev ⟨a, some ev', c, .draining⟩ ⟨a, none, c, .returned .ctx⟩
  | selectE (a : WPhase) (c : Bool) (ev' : Option String) :
      WStep ev ⟨a, some ev', c, .selecting⟩
        ⟨a, none, c, .returned (WriteError.ofOpt ev')⟩

/-- The states one `writeMessage` call can reach from its start. -/
inductive WReach (ev : Option String) : WRaceState → Prop where
  | init : WReach ev ⟨.working, none, false, .selecting⟩
  | step {s s' : WRaceState} : WReach ev s → WStep ev s s' → WReach ev s'

/-- Finding a key in a key-filtered list extended by an entry carrying that
key yields exactly that entry. -/
theorem find?_key_filter_append {β : Type} (l : List (String × β)) (k : String)
    (x : String × β) (hx : x.1 = k) :
    ((l.filter fun p => p.1 != k) ++ [x]).find? (fun p => p.1 == k) = some x := by
  induction l with
  | nil => simp [List.find?, hx]
  | cons a t ih =>
      by_cases h : a.1 = k
      · simpa [List.filter_cons, h] using ih
      · rw [List.filter_cons_of_pos (by simpa using h), List.cons_append,
          List.find?_cons_of_neg _ (by simpa using h)]
        exact ih

/-- Method `Set` followed by lookup of the same key yields the set value. -/
theorem Values.get?_set (q : Values) (k v : String) :
    (q.set k v).get? k = some [v] := by
  simp [Values.set, Values.get?, find?_key_filter_append q.entries k (k, [v]) rfl]

/-- Go map insertion followed by lookup of the same key yields the value. -/
theorem mapLookup_mapInsert (m : ItemsMap) (k v : String) :
    mapLookup (mapInsert m k v) k = some v := by
  simp [mapInsert, mapLookup, find?_key_filter_append m k (k, v) rfl]

/-- Reading a freshly appended heap cell yields the appended value. -/
theorem getD_append_singleton {α : Type} (l : List α) (x d : α) :
    (l ++ [x]).getD l.length d = x := by
  induction l with
  | nil => rfl
  | cons a t ih => simp only [List.cons_append, List.length_cons, List.getD_cons_succ]; exact ih

/-- Reading a heap cell just overwritten yields the written value. -/
theorem getD_set_self {α : Type} (l : List α) (n : Nat) (m d : α)
    (h : n < l.length) :
    (l.set n m).getD n d = m := by
  induction l generalizing n with
  | nil => simp at h
  | cons a t ih =>
      cases n with
      | zero => rfl
      | succ n => simpa [List.set, List.getD] using ih n (by simpa using h)

/-- Invariant of the `Receive` race: the error channel is only ever non-empty
once the spawned goroutine has finished, and a return carrying the
cancellation error happens only with the goroutine finished, a nil message,
and the error channel drained. -/
theorem rreach_inv (mv ev : Option String) (s : RaceState) (h : RReach mv ev s) :
    (s.eBuf.isSome → s.attempt = .finished) ∧
    (∀ r, s.main = .returned r → r.error = .ctx →
      s.attempt = .finished ∧ r.message = none ∧ s.eBuf = none) := by
  induction h with
  | init =>
      constructor
      · intro hh; simp at hh
      · intro r hm; simp at hm
  | step hr hs ih =>
      obtain ⟨ih1, ih2⟩ := ih
      cases hs with
      | sendM eb c mn =>
          constructor
          · intro hh; have := ih1 hh; simp at this
          · intro r hm hc; have := (ih2 r hm hc).1; simp at this
      | sendE mb c mn =>
          constructor
          · intro _; rfl
          · intro r hm hc; have := (ih2 r hm hc).1; simp at this
      | cancel a mb eb mn => exact ⟨ih1, ih2⟩
      | selectDone a mb eb =>
          constructor
          · exact ih1
          · intro r hm; simp at hm
      | drainE a mb c ev' =>
          constructor
          · intro hh; simp at hh
          · intro r hm hc
            have ha : a = .finished := ih1 rfl
            injection hm with hr'
            exact ⟨ha, by rw [← hr'], rfl⟩
      | selectE a mv' ev' c =>
          constructor
          · intro hh; simp at hh
          · intro r hm hc
            injection hm with hr'
            rw [← hr'] at hc
            cases ev' <;> simp [RecvError.ofOpt] at hc

/-- Invariant of the `writeMessage` race, analogous to `rreach_inv`. -/
theorem wreach_inv (ev : Option String) (s : WRaceState) (h : WReach ev s) :
    (s.eBuf.isSome → s.attempt = .finished) ∧
    (s.main = .returned .ctx → s.attempt = .finished ∧ s.eBuf = none) := by
  induction h with
  | init =>
      constructor
      · intro hh; simp at hh
      · intro hm; simp at hm
  | step hr hs ih =>
      obtain ⟨ih1, ih2⟩ := ih
      cases hs with
      | sendE c mn =>
          constructor
          · intro _; rfl
          · intro hm; have := (ih2 hm).1; simp at this
      | cancel a eb mn => exact ⟨ih1, ih2⟩
      | selectDone a eb =>
          constructor
          · exact ih1
          · intro hm; simp at hm
      | drainE a c ev' =>
          constructor
          · intro hh; simp at hh
          · intro _; exact ⟨ih1 rfl, rfl⟩
      | selectE a c ev' =>
          constructor
          · intro hh; simp at hh
          · intro hm
            injection hm with hr'
            cases ev' <;> simp [WriteError.ofOpt] at hr'

/-- C1 (code bug evaluation): with a header provider that returns a fresh
`http.Header` containing `Authorization: Bearer XYZ` on every call, the
WebSocket branch deletes the header only from the first returned copy and
then re-invokes the provider for `opts.HTTPHeader`, so the dial options DO
carry `Authorization: Bearer XYZ`, contradicting the claim — while the dial
URL does carry `access_token=XYZ`; only a provider returning the same
underlying map on every call gets the header stripped. -/
theorem ws_dial_keeps_authorization_for_fresh_provider :
    ((wsBranchPrep (some (.fresh ⟨[("Authorization", ["Bearer XYZ"])]⟩))
        ⟨[]⟩).opts.httpHeader.getD ⟨[]⟩).get "Authorization" = "Bearer XYZ" ∧
    (wsBranchPrep (some (.fresh ⟨[("Authorization", ["Bearer XYZ"])]⟩))
        ⟨[]⟩).query.get? "access_token" = some ["XYZ"] ∧
    ((wsBranchPrep (some (.shared ⟨[("Authorization", ["Bearer XYZ"])]⟩))
        ⟨[]⟩).opts.httpHeader.getD ⟨[]⟩).get "Authorization" = "" ∧
    (wsBranchPrep (some (.shared ⟨[("Authorization", ["Bearer XYZ"])]⟩))
        ⟨[]⟩).query.get? "access_token" = some ["XYZ"] := by
  decide

/-- C2: whenever a `Receive` call returns carrying the cancellation scope's
error, the returned message is nil, the spawned read attempt has finished
(both its buffered sends are done, after which it only exits), and its
result channel has been drained; and whenever a `writeMessage` call returns
the cancellation scope's error, its spawned write attempt has likewise
finished and been drained. No spawned attempt outlives the call. -/
theorem receive_write_cancel_drain :
    (∀ (mv ev : Option String) (s : RaceState) (r : RecvResult),
      RReach mv ev s → s.main = .returned r → r.error = .ctx →
      r.message = none ∧ s.attempt = .finished ∧ s.eBuf = none) ∧
    (∀ (ev : Option String) (s : WRaceState),
      WReach ev s → s.main = .returned .ctx →
      s.attempt = .finished ∧ s.eBuf = none) := by
  constructor
  · intro mv ev s r hreach hm hc
    have hinv := rreach_inv mv ev s hreach
    obtain ⟨ha, hmsg, hbuf⟩ := hinv.2 r hm hc
    exact ⟨hmsg, ha, hbuf⟩
  · intro ev s hreach hm
    exact (wreach_inv ev s hreach).2 hm

/-- Witness for C2: a concrete interleaving in which the goroutine finishes,
cancellation fires, and the select drains the attempt before returning the
cancellation error — for both the `Receive` and the `writeMessage` system. -/
theorem receive_write_cancel_drain_witness :
    ((⟨none, .ctx⟩ : RecvResult).message = none ∧
      (⟨.finished, some none, none, true, .returned ⟨none, .ctx⟩⟩ : RaceState).attempt
        = .finished ∧
      (⟨.finished, some none, none, true, .returned ⟨none, .ctx⟩⟩ : RaceState).eBuf
        = none) ∧
    ((⟨.finished, none, true, .returned .ctx⟩ : WRaceState).attempt = .finished ∧
      (⟨.finished, none, true, .returned .ctx⟩ : WRaceState).eBuf = none) := by
  have tr : RReach none none ⟨.finished, some none, none, true, .returned ⟨none, .ctx⟩⟩ :=
    .step (.step (.step (.step (.step .init
      (.sendM none false .selecting))
      (.sendE (some none) false .selecting))
      (.cancel .finished (some none) (some none) .selecting))
      (.selectDone .finished (some none) (some none)))
      (.drainE .finished (some none) true none)
  have wtr : WReach none ⟨.finished, none, true, .returned .ctx⟩ :=
    .step (.step (.step (.step .init
      (.sendE false .selecting))
      (.cancel .finished (some none) .selecting))
      (.selectDone .finished (some none)))
      (.drainE .finished true none)
  exact ⟨receive_write_cancel_drain.1 none none _ _ tr rfl rfl,
    receive_write_cancel_drain.2 none _ wtr rfl⟩

/-- C3: the transport URL's `id` query parameter equals `connectionToken`
whenever the token is non-empty (in particular the token is never ignored in
favour of `connectionId` when both are present), and equals `connectionId`
when the token is empty. -/
theorem id_query_prefers_token (q : Values) (nr : negotiateResponse) :
    (nr.connectionToken ≠ "" →
      (setIdQuery q nr).get? "id" = some [nr.connectionToken]) ∧
    (nr.connectionToken = "" →
      (setIdQuery q nr).get? "id" = some [nr.connectionID]) := by
  constructor <;> intro h <;> simp [setIdQuery, h, Values.get?_set]

/-- Witness for C3: a response with both identifiers present routes by the
token. -/
theorem id_query_prefers_token_witness :
    (setIdQuery ⟨[]⟩ ⟨"the-id", "the-token", []⟩).get? "id" = some ["the-token"] :=
  (id_query_prefers_token ⟨[]⟩ ⟨"the-id", "the-token", []⟩).1 (by decide)

/-- C4: when the negotiate response advertises neither "WebSockets" nor
"ServerSentEvents", the transport-selection switch falls through, `conn`
keeps its nil zero value, and `NewHTTPConnection` returns `(nil, nil)`. -/
theorem no_supported_transport_nil_nil (nr : negotiateResponse) (env : TransportEnv)
    (hws : nr.getTransferFormats "WebSockets" = none)
    (hsse : nr.getTransferFormats "ServerSentEvents" = none) :
    selectAndEstablish nr env = .nilNil := by
  simp [selectAndEstablish, hws, hsse]

/-- Witness for C4: a response advertising only "LongPolling" yields
`(nil, nil)`. -/
theorem no_supported_transport_nil_nil_witness :
    selectAndEstablish ⟨"cid", "", [⟨"LongPolling", ["Text"]⟩]⟩ ⟨none, none⟩
      = .nilNil :=
  no_supported_transport_nil_nil _ _ (by decide) (by decide)

/-- C5: `Close(errorText)` clears the Connected flag, constructs the close
message `Type=7, Error=errorText, AllowReconnect=true`, hands exactly that
message to the protocol's write path, and returns it together with whatever
error the write path produced. -/
theorem close_clears_and_sends (s : HubState) (error : String) (env : WriteEnv) :
    IsConnected (Close s error env).state = false ∧
    (Close s error env).msg = { type := 7, error := error, allowReconnect := true } ∧
    (Close s error env).written = [(Close s error env).msg] ∧
    (Close s error env).err
      = (writeMessageModel { s with Connected := 0 } (Close s error env).msg env).2 := by
  exact ⟨rfl, rfl, rfl, rfl⟩

/-- C6: `Close` leaves the internal cancellation scope exactly as it was —
after a `Close` with `Abort` not called the context is still not done —
while `Abort` is the operation that cancels the scope. -/
theorem close_preserves_scope (s : HubState) (error : String) (env : WriteEnv)
    (h : s.ctxDone = false) :
    (Close s error env).state.ctxDone = false ∧ (Abort s).ctxDone = true := by
  exact ⟨h, rfl⟩

/-- Witness for C6: closing a live connection leaves the scope alive. -/
theorem close_preserves_scope_witness :
    (Close ⟨1, false⟩ "boom" ⟨none, false⟩).state.ctxDone = false ∧
    (Abort ⟨1, false⟩).ctxDone = true :=
  close_preserves_scope ⟨1, false⟩ "boom" ⟨none, false⟩ rfl

/-- C8: the Connected flag is not latched — after `Close` (or `Abort`) has
cleared it, a further `Start` compare-and-swaps it from 0 to 1, so
`IsConnected()` reports true again. -/
theorem connected_not_latched (s : HubState) (error : String) (env : WriteEnv) :
    IsConnected (Start (Close s error env).state) = true ∧
    IsConnected (Start (Abort s)) = true := by
  exact ⟨rfl, rfl⟩

/-- C7 (counterexample): on a 500 negotiate response the body is closed but
never read — the claim that the body is fully drained regardless of outcome
fails at this input. -/
theorem negotiate_body_not_drained_on_500 :
    NegotiateEffect.readBody ∉
      (negotiatePhase "POST" "http://example.org/negotiate"
        (.ok ⟨500, "500 Internal Server Error", none, true, ⟨"", "", []⟩⟩)).1 ∧
    NegotiateEffect.closeBody ∈
      (negotiatePhase "POST" "http://example.org/negotiate"
        (.ok ⟨500, "500 Internal Server Error", none, true, ⟨"", "", []⟩⟩)).1 := by
  decide

/-- C7 (amended): whenever the negotiate POST obtains an HTTP response, the
response body is closed before the function returns and exactly one
negotiate round trip is performed, on every path; the body is read in full
only on the 200-status paths (success or JSON-decode failure). -/
theorem negotiate_body_closed_one_roundtrip (method urlStr : String)
    (resp : HTTPRespModel) :
    NegotiateEffect.closeBody ∈ (negotiatePhase method urlStr (.ok resp)).1 ∧
    (negotiatePhase method urlStr (.ok resp)).1.count .doNegotiate = 1 ∧
    (resp.statusCode = 200 →
      NegotiateEffect.readBody ∈ (negotiatePhase method urlStr (.ok resp)).1) := by
  unfold negotiatePhase
  by_cases h200 : resp.statusCode = 200
  · cases hra : resp.readAllErr <;> by_cases hd : resp.decodeOk <;>
      simp [h200, hra, hd, List.count_cons]
  · simp [h200, List.count_cons]

/-- Witness for C7 (amended): a successful negotiate both reads and closes
the body. -/
theorem negotiate_body_closed_one_roundtrip_witness :
    NegotiateEffect.closeBody ∈
      (negotiatePhase "POST" "http://example.org/negotiate"
        (.ok ⟨200, "200 OK", none, true, ⟨"cid", "tok", []⟩⟩)).1 ∧
    NegotiateEffect.readBody ∈
      (negotiatePhase "POST" "http://example.org/negotiate"
        (.ok ⟨200, "200 OK", none, true, ⟨"cid", "tok", []⟩⟩)).1 :=
  ⟨(negotiate_body_closed_one_roundtrip "POST" "http://example.org/negotiate"
      ⟨200, "200 OK", none, true, ⟨"cid", "tok", []⟩⟩).1,
    (negotiate_body_closed_one_roundtrip "POST" "http://example.org/negotiate"
      ⟨200, "200 OK", none, true, ⟨"cid", "tok", []⟩⟩).2.2 rfl⟩

/-- C9: with a header provider configured that supplies no Authorization
header, the WebSocket branch still sets `access_token` on the dial URL's
query, with the empty string as its value — for a provider returning fresh
maps and for one returning a shared map alike. -/
theorem ws_dial_access_token_empty_without_auth (base : Headers) (q0 : Values)
    (hauth : base.get "Authorization" = "") :
    (wsBranchPrep (some (.fresh base)) q0).query.get? "access_token" = some [""] ∧
    (wsBranchPrep (some (.shared base)) q0).query.get? "access_token" = some [""] := by
  constructor <;>
    simp [wsBranchPrep, HeaderProvider.initHeap, HeaderProvider.call, heapHeaders,
      hauth, Values.get?_set]

/-- Witness for C9: a provider supplying only `X-Custom` yields an empty
`access_token`. -/
theorem ws_dial_access_token_empty_without_auth_witness :
    (wsBranchPrep (some (.fresh ⟨[("X-Custom", ["v"])]⟩)) ⟨[]⟩).query.get?
      "access_token" = some [""] :=
  (ws_dial_access_token_empty_without_auth ⟨[("X-Custom", ["v"])]⟩ ⟨[]⟩ (by decide)).1

/-- C10: the items map is created once, empty, at construction;
`Items()` returns the very reference stored in the connection (no copy), and
an entry written through the map obtained from one `Items()` call is visible
through the map obtained from any later `Items()` call. -/
theorem items_single_map (maxSize : Nat) (h : ItemsHeap) (k v : String) :
    Items (newHubConnection maxSize h).1 = (newHubConnection maxSize h).1.itemsRef ∧
    itemsAt (newHubConnection maxSize h).2 (Items (newHubConnection maxSize h).1) = [] ∧
    mapLookup
      (itemsAt
        (itemsWrite (newHubConnection maxSize h).2 (Items (newHubConnection maxSize h).1)
          (mapInsert
            (itemsAt (newHubConnection maxSize h).2 (Items (newHubConnection maxSize h).1))
            k v))
        (Items (newHubConnection maxSize h).1)) k = some v := by
  refine ⟨rfl, getD_append_singleton h [] [], ?_⟩
  have e1 : itemsAt (newHubConnection maxSize h).2 (Items (newHubConnection maxSize h).1)
      = [] := getD_append_singleton h [] []
  rw [e1]
  have e2 : itemsAt
      (itemsWrite (newHubConnection maxSize h).2 (Items (newHubConnection maxSize h).1)
        (mapInsert [] k v))
      (Items (newHubConnection maxSize h).1) = mapInsert [] k v := by
    show ((h ++ [[]]).set h.length (mapInsert [] k v)).getD h.length [] = mapInsert [] k v
    exact getD_set_self (h ++ [[]]) h.length (mapInsert [] k v) [] (by simp)
  rw [e2]
  exact mapLookup_mapInsert [] k v

end Signalr
